import Mathlib

/-!
Verification of the witchcraft-rust-server core against its specification.

The definitions below are a shallow embedding of the Rust sources:

* `src/witchcraft-server/src/service/connection_metrics.rs`
  (`ConnectionMetricsLayer`, `ConnectionMetricsFuture::poll`,
  `ConnectionMetricsStream`'s pinned drop),
* `src/witchcraft-server/src/server.rs` (the accept loop of `start`),
* `src/witchcraft-server/src/lib.rs` (`init`, `init_inner`, `shutdown`),
* `src/witchcraft-server/src/witchcraft.rs` (`Witchcraft::app`, `api`,
  `blocking_app`, `blocking_api`, `endpoints`, `blocking_endpoints`,
  `extend_path`).

Pieces of the repository referenced by those files but not included in the
excerpt (the connection-limit layer, the `ShutdownHooks` collection, and the
shutdown hook that stops the accept loop) are modelled from the spec; each
such definition carries a doc comment starting with `Modelled from the spec:`.
-/

/-- The install-time configuration fields used by the embedded code
(`witchcraft-server-config`'s `InstallConfig`; the excerpt shows only its
crate root, so the record carries exactly the accessors the embedded sources
call: `context_path()`, `server().max_connections()`,
`server().shutdown_timeout()`). -/
structure InstallConfig where
  context_path : String
  max_connections : Nat
  shutdown_timeout : Nat

/-- Embeds `witchcraft_metrics::Counter`: a shared integer counter with `inc`, `dec`
and `count`. -/
structure Counter where
  count : Int

/-- Embeds `Counter::inc`. -/
def Counter.inc (c : Counter) : Counter :=
  ⟨c.count + 1⟩

/-- Embeds `Counter::dec`. -/
def Counter.dec (c : Counter) : Counter :=
  ⟨c.count - 1⟩

/-- Embeds `std::task::Poll`. -/
inductive Poll (α : Type) where
  | ready (value : α)
  | pending
deriving DecidableEq, Repr

/-- The stream returned by the connection-metrics layer
(`ConnectionMetricsStream` without its counter handle, which the embedding
threads explicitly). -/
structure ConnectionMetricsStream (α : Type) where
  inner : α
deriving DecidableEq, Repr

/-- Embeds `ConnectionMetricsFuture::poll` (connection_metrics.rs lines 91-101):
given the result of polling the inner setup future and the current
`active_connections` counter, return Pending unchanged when the inner future
is pending; when the inner future is ready, increment the counter and return
the wrapped `ConnectionMetricsStream`. -/
def connectionMetricsFuturePoll {α : Type} (innerPoll : Poll α)
    (active_connections : Counter) :
    Poll (ConnectionMetricsStream α) × Counter :=
  match innerPoll with
  | .pending => (.pending, active_connections)
  | .ready inner => (.ready ⟨inner⟩, active_connections.inc)

/-- Embeds the pinned drop of `ConnectionMetricsStream` (connection_metrics.rs lines
111-116): decrement `active_connections`, unconditionally, whenever the
stream is released. -/
def connectionMetricsStreamDrop {α : Type} (_stream : ConnectionMetricsStream α)
    (active_connections : Counter) : Counter :=
  active_connections.dec

/-- One connection's passage through the metrics layer, as the Rust ownership
discipline allows it: either the setup future is polled some number of times
(each returning Pending) and then dropped before ever completing, or the
setup future completes (the poll that returns Ready increments the counter),
the handler for the wrapped stream runs — finishing normally or with an
error — and the stream is dropped at the end of the connection task either
way. -/
inductive ConnectionLifecycle where
  | abortedDuringSetup (pendingPolls : Nat)
  | completed (pendingPolls : Nat) (handlerErred : Bool)
deriving DecidableEq, Repr

/-- Effect on the counter of `n` polls of the setup future that all find the
inner future pending. -/
def pendingPollsEffect : Nat → Counter → Counter
  | 0, c => c
  | n + 1, c => pendingPollsEffect n (connectionMetricsFuturePoll (α := Unit) .pending c).2

/-- Effect of a whole connection lifecycle on the active-connection counter,
composed from the embedded poll and drop operations. A future dropped before
completion never produced a stream, so no drop of a stream runs for it; a
completed setup hands the stream to the connection task, whose end (normal or
erroneous) drops the stream. -/
def runLifecycle : ConnectionLifecycle → Counter → Counter
  | .abortedDuringSetup n, c => pendingPollsEffect n c
  | .completed n _handlerErred, c =>
    let c1 := pendingPollsEffect n c
    match connectionMetricsFuturePoll (Poll.ready ()) c1 with
    | (.ready s, c2) => connectionMetricsStreamDrop s c2
    | (.pending, c2) => c2

theorem pendingPollsEffect_eq (n : Nat) (c : Counter) :
    pendingPollsEffect n c = c := by
  induction n with
  | zero => rfl
  | succ n ih => simpa [pendingPollsEffect, connectionMetricsFuturePoll] using ih

theorem runLifecycle_eq (l : ConnectionLifecycle) (c : Counter) :
    runLifecycle l c = c := by
  cases l with
  | abortedDuringSetup n => simp [runLifecycle, pendingPollsEffect_eq]
  | completed n e =>
    cases c with
    | mk k =>
      simp [runLifecycle, pendingPollsEffect_eq, connectionMetricsFuturePoll,
        connectionMetricsStreamDrop, Counter.inc, Counter.dec]

/-- Claim C1: the connection-metrics layer increments the active-connection
counter exactly when the inner layer's setup future completes (a pending poll
leaves the counter untouched, the ready poll increments it), decrements it
exactly once when the wrapped stream is released on any exit path, and
consequently any sequence of connection lifecycles — abrupt setup drops and
completed connections alike — leaves the counter at its initial value once
all connections have terminated. -/
theorem connection_metrics_counter_balance :
    (∀ c : Counter,
      connectionMetricsFuturePoll (α := Unit) .pending c = (.pending, c)) ∧
    (∀ (c : Counter) (x : Unit),
      (connectionMetricsFuturePoll (.ready x) c).2 = c.inc) ∧
    (∀ (c : Counter) (s : ConnectionMetricsStream Unit),
      connectionMetricsStreamDrop s c = c.dec) ∧
    (∀ (ls : List ConnectionLifecycle) (c0 : Counter),
      List.foldl (fun c l => runLifecycle l c) c0 ls = c0) := by
  refine ⟨fun c => rfl, fun c x => rfl, fun c s => rfl, fun ls => ?_⟩
  induction ls with
  | nil => intro c0; rfl
  | cons l rest ih => intro c0; simp [runLifecycle_eq, ih c0]

/-- Embeds `ConnectionMetricsLayer::new` (connection_metrics.rs lines 33-43), the
gauge-registration part: it registers, under the name
`server.connection.utilization`, a closure over the layer's own
`active_connections` counter and the configured maximum that reports
`active_connections.count() / max_connections`. The Rust closure divides in
`f64`; the embedding divides in `ℚ`. -/
def ConnectionMetricsLayer.newUtilizationGauge (config : InstallConfig) :
    String × (Counter → ℚ) :=
  ("server.connection.utilization",
    fun active_connections =>
      (active_connections.count : ℚ) / (config.max_connections : ℚ))

/-- The value the registered utilization gauge reports when the shared
counter holds `c`. -/
def utilizationGauge (config : InstallConfig) (c : Counter) : ℚ :=
  (ConnectionMetricsLayer.newUtilizationGauge config).2 c

/-- Claim C8: the gauge registered as `server.connection.utilization` always
reports the current value of the active-connection counter divided by the
configured maximum number of connections — in particular it tracks the
counter through any sequence of connection lifecycles, and returns to the
initial ratio once all connections have terminated. -/
theorem utilization_gauge_reports_active_over_max :
    (ConnectionMetricsLayer.newUtilizationGauge ⟨"/", 7, 15⟩).1 =
      "server.connection.utilization" ∧
    (∀ (config : InstallConfig) (c : Counter),
      utilizationGauge config c =
        (c.count : ℚ) / (config.max_connections : ℚ)) ∧
    (∀ (config : InstallConfig) (c0 : Counter)
        (ls : List ConnectionLifecycle),
      utilizationGauge config (List.foldl (fun c l => runLifecycle l c) c0 ls) =
        (c0.count : ℚ) / (config.max_connections : ℚ)) := by
  refine ⟨rfl, fun config c => rfl, fun config c0 ls => ?_⟩
  have h : List.foldl (fun c l => runLifecycle l c) c0 ls = c0 := by
    induction ls with
    | nil => rfl
    | cons l rest ih => simp [runLifecycle_eq, ih]
  rw [h]; rfl

/-- Result of the admission decision the connection-limit layer makes for a
newly accepted connection. -/
inductive AdmissionResult where
  | accepted (stream : ConnectionMetricsStream Unit)
  | closedImmediately
deriving DecidableEq, Repr

/-- Modelled from the spec:
`src/witchcraft-server/src/service/connection_limit.rs` is not in the
excerpt; server.rs lines 53-57 stack `ConnectionLimitLayer` outside
`ConnectionMetricsLayer`. Per the spec (§4.3), before constructing inner
connection state the layer checks the current concurrent-connection count
against the configured maximum; at or over the maximum the new connection is
closed immediately — not queued — and the inner (metrics) service never runs
for it. When admitted, the inner metrics setup completes, which increments
the active-connection counter (connection_metrics.rs lines 91-101). -/
def connectionLimitCall (active : Nat) (config : InstallConfig)
    (active_connections : Counter) : AdmissionResult × Counter :=
  if active < config.max_connections then
    match connectionMetricsFuturePoll (Poll.ready ()) active_connections with
    | (.ready s, c2) => (.accepted s, c2)
    | (.pending, c2) => (.closedImmediately, c2)
  else
    (.closedImmediately, active_connections)

/-- Claim C2: with `active` connections currently active, a newly accepted
connection is closed immediately — without the inner metrics state being
constructed and without the active-connection counter being incremented —
exactly when `active` is at or over the configured maximum; below the
maximum it is admitted and the counter is incremented. -/
theorem connection_limit_load_shedding (active : Nat) (config : InstallConfig)
    (c : Counter) :
    (config.max_connections ≤ active →
      connectionLimitCall active config c = (.closedImmediately, c)) ∧
    (active < config.max_connections →
      connectionLimitCall active config c = (.accepted ⟨()⟩, c.inc)) := by
  constructor
  · intro h
    have h' : ¬ active < config.max_connections := not_lt.mpr h
    simp [connectionLimitCall, h']
  · intro h
    simp [connectionLimitCall, h, connectionMetricsFuturePoll]

/-- Witness for claim C2 at a concrete state: with 2 active connections and a
maximum of 2, the third connection is closed and the counter at 2 is left
unchanged. -/
theorem connection_limit_load_shedding_witness :
    connectionLimitCall 2 ⟨"/", 2, 15⟩ ⟨2⟩ = (.closedImmediately, ⟨2⟩) :=
  (connection_limit_load_shedding 2 ⟨"/", 2, 15⟩ ⟨2⟩).1 (by decide)

/-- Modelled from the spec: `shutdown_hooks.rs` (`ShutdownHooks`) is not in
the excerpt; lib.rs only constructs, fills and awaits values of the type.
Per the spec (§3, §4.8), a `ShutdownHooks` value is a fixed set of
asynchronous hooks awaited concurrently; it is modelled as the list of each
hook's completion time, measured from the moment the collection starts being
awaited, with `none` for a hook that never completes. -/
structure ShutdownHooks where
  hooks : List (Option Nat)
deriving DecidableEq, Repr

/-- Modelled from the spec: awaiting a `ShutdownHooks` collection completes
when every hook has completed (the hooks run concurrently, so the await
completes at the latest hook-completion time), and never completes if some
hook never completes. -/
def ShutdownHooks.completionTime (h : ShutdownHooks) : Option Nat :=
  h.hooks.foldl
    (fun acc t =>
      match acc, t with
      | some a, some b => some (Nat.max a b)
      | _, _ => none)
    (some 0)

/-- The environment `shutdown` (lib.rs lines 230-258) runs in once the first
termination signal has arrived; times are measured from that moment.
`server_hooks_done` is when the `server_shutdown_hooks` future completes
(`none` if never), `second_signal` is when `signals.next()` yields again
(`none` if no further signal arrives), and `timeout` is the configured
shutdown timeout, at which `time::sleep(timeout)` completes. -/
structure ShutdownEnv where
  server_hooks_done : Option Nat
  second_signal : Option Nat
  timeout : Nat
deriving DecidableEq, Repr

/-- The time at which the `select!` in `shutdown` (lib.rs lines 242-253)
returns: the earliest of server-hook completion, a second signal, and the
timeout sleep. Because the sleep always completes at `timeout`, the drain
always ends by then. -/
def drainEnd (e : ShutdownEnv) : Nat :=
  match e.server_hooks_done, e.second_signal with
  | some h, some s => Nat.min (Nat.min h s) e.timeout
  | some h, none => Nat.min h e.timeout
  | none, some s => Nat.min s e.timeout
  | none, none => e.timeout

/-- After the `select!` returns, `shutdown` awaits `logger_shutdown_hooks`
with no deadline (lib.rs line 255); the whole shutdown procedure completes
when that await does, and never completes if a logger hook never does. -/
def shutdownCompletionTime (e : ShutdownEnv)
    (logger_shutdown_hooks : ShutdownHooks) : Option Nat :=
  (logger_shutdown_hooks.completionTime).map (fun d => drainEnd e + d)

theorem drainEnd_le_timeout (e : ShutdownEnv) : drainEnd e ≤ e.timeout := by
  obtain ⟨h, s, T⟩ := e
  cases h <;> cases s <;> simp [drainEnd]

/-- Claim C3: once the coordinator is draining, the drain ends as soon as any
one of the three events occurs — it ends no later than server-hook
completion, no later than a second signal, no later than the configured
timeout, and the moment it ends is one of those three events. -/
theorem shutdown_drain_first_event (e : ShutdownEnv) :
    (∀ t, e.server_hooks_done = some t → drainEnd e ≤ t) ∧
    (∀ t, e.second_signal = some t → drainEnd e ≤ t) ∧
    drainEnd e ≤ e.timeout ∧
    (e.server_hooks_done = some (drainEnd e) ∨
      e.second_signal = some (drainEnd e) ∨ drainEnd e = e.timeout) := by
  obtain ⟨h, s, T⟩ := e
  refine ⟨?_, ?_, drainEnd_le_timeout ⟨h, s, T⟩, ?_⟩
  · intro t ht
    cases h <;> cases s <;> simp_all [drainEnd]
  · intro t ht
    cases h <;> cases s <;> simp_all [drainEnd]
  · cases h <;> cases s <;> simp [drainEnd] <;> omega

/-- Witness for claim C3 at a concrete environment: with server hooks done at
3, a second signal at 7 and a timeout of 10, the drain ends by time 3. -/
theorem shutdown_drain_first_event_witness :
    drainEnd ⟨some 3, some 7, 10⟩ ≤ 3 :=
  (shutdown_drain_first_event ⟨some 3, some 7, 10⟩).1 3 rfl

/-- Counterexample to claim C4 as stated: with a shutdown timeout of 5 and a
server hook that never completes, the drain itself times out at 5, but a
logger shutdown hook taking 1000 makes the whole shutdown finish only at
1005 — far beyond the timeout plus any small scheduling slack — and a logger
hook that never completes makes shutdown never finish at all: the
logger-hook await in `shutdown` has no deadline. -/
theorem shutdown_timeout_bound_counterexample :
    drainEnd ⟨none, none, 5⟩ = 5 ∧
    shutdownCompletionTime ⟨none, none, 5⟩ ⟨[some 1000]⟩ = some 1005 ∧
    shutdownCompletionTime ⟨none, none, 5⟩ ⟨[none]⟩ = none := by
  refine ⟨rfl, ?_, rfl⟩
  simp [shutdownCompletionTime, ShutdownHooks.completionTime, drainEnd]

/-- Claim C4 as amended: the drain of the server shutdown hooks is bounded by
the configured timeout (server hooks either complete or are abandoned by
then, and a second signal or hook completion only shortens the wait), but the
logger shutdown hooks are then awaited with no deadline: the whole shutdown
completes at drain end plus the logger hooks' completion time, and never
completes if a logger hook never completes. -/
theorem shutdown_drain_bounded_logger_awaited (e : ShutdownEnv)
    (lg : ShutdownHooks) :
    drainEnd e ≤ e.timeout ∧
    shutdownCompletionTime e lg =
      lg.completionTime.map (fun d => drainEnd e + d) ∧
    (lg.completionTime = none → shutdownCompletionTime e lg = none) := by
  refine ⟨drainEnd_le_timeout e, rfl, fun h => ?_⟩
  simp [shutdownCompletionTime, h]

/-- Witness for the amended claim C4 at a concrete environment: with no
second signal, server hooks never completing and a timeout of 5, a logger
hook collection that never completes leaves the shutdown incomplete
forever. -/
theorem shutdown_drain_bounded_logger_awaited_witness :
    shutdownCompletionTime ⟨none, none, 5⟩ ⟨[none]⟩ = none :=
  (shutdown_drain_bounded_logger_awaited ⟨none, none, 5⟩ ⟨[none]⟩).2.2 rfl

/-- Modelled from the spec: the version of `server::start` that lib.rs line
217 invokes (taking the server shutdown hooks) is not in the excerpt — the
excerpt's server.rs shows the accept loop itself but not the hook that stops
it. Per the spec (§4.8, §8), the first shutdown phase stops the accept loop
when the first termination signal is received, so while no signal has been
received the loop accepts every arriving connection, and from the signal's
arrival time onward it accepts none. `signalTime` is the arrival time of the
first termination signal (`none` while the server is running normally). -/
def acceptLoopAccepts (signalTime : Option Nat) (t : Nat) : Bool :=
  match signalTime with
  | none => true
  | some s => decide (t < s)

/-- The connections the accept loop of `server::start` (server.rs lines
59-72) admits into the system, out of a stream of raw connection arrivals,
under the spec-modelled signal gating. -/
def acceptedConnections (signalTime : Option Nat) (arrivals : List Nat) :
    List Nat :=
  arrivals.filter (fun t => acceptLoopAccepts signalTime t)

/-- Claim C5: once the first termination signal is received at time `s`, no
new connections are accepted: every connection in the system after that
point was accepted strictly before `s`, and with no signal pending every
arrival is accepted. -/
theorem no_connections_accepted_after_signal (s : Nat) (arrivals : List Nat) :
    (∀ t ∈ acceptedConnections (some s) arrivals, t < s) ∧
    acceptedConnections none arrivals = arrivals := by
  constructor
  · intro t ht
    have h := List.of_mem_filter ht
    simpa [acceptLoopAccepts] using h
  · simp [acceptedConnections, acceptLoopAccepts]

/-- Witness for claim C5 at a concrete trace: with the first signal at time
4, the arrivals at 1, 3, 4 and 9 are filtered to those before 4, and each
accepted arrival is below 4. -/
theorem no_connections_accepted_after_signal_witness :
    acceptedConnections (some 4) [1, 3, 4, 9] = [1, 3] ∧ (1 : Nat) < 4 :=
  ⟨rfl, (no_connections_accepted_after_signal 4 [1, 3, 4, 9]).1 1 (by decide)⟩

/-- The stages of `init_inner` (lib.rs lines 131-228) that can fail with an
`Error` and are sequenced with `?` / `map_err`: loading the install config,
building the Tokio runtime, loading the runtime config, initializing
logging, the user-supplied `init` closure, and `server::start`. Each field
is the stage's result, `()` on success. -/
structure InitStages (ε : Type) where
  load_install : Except ε Unit
  build_runtime : Except ε Unit
  load_runtime : Except ε Unit
  logging : Except ε Unit
  user_init : Except ε Unit
  server_start : Except ε Unit

/-- Embeds `init_inner` (lib.rs lines 131-228): runs the stages in order,
propagating the first failure with `?`. -/
def init_inner {ε : Type} (s : InitStages ε) : Except ε Unit := do
  s.load_install
  s.build_runtime
  s.load_runtime
  s.logging
  s.user_init
  s.server_start

/-- What the process does when `init` returns. -/
inductive ProcessOutcome where
  | normalReturn
  | exited (code : Nat)
deriving DecidableEq, Repr

/-- The externally visible effects of `init` (lib.rs lines 105-129). -/
structure InitEffects where
  outcome : ProcessOutcome
  fatalLogged : Bool
  errorPrinted : Bool
deriving DecidableEq, Repr

/-- Embeds `init` (lib.rs lines 105-129): on `Ok(())` from `init_inner` it returns
normally; on `Err(e)` it logs the error with `fatal!`, prints it to stderr,
and calls `process::exit(1)`. -/
def init {ε : Type} (s : InitStages ε) : InitEffects :=
  match init_inner s with
  | .ok () => ⟨.normalReturn, false, false⟩
  | .error _ => ⟨.exited 1, true, true⟩

/-- Claim C6: whenever `init_inner` fails — in particular on a config-load,
runtime-construction or server-start failure — `init` logs and prints the
error and exits the process with the non-zero status 1; when `init_inner`
succeeds, `init` returns normally without exiting. -/
theorem init_startup_failure_exit {ε : Type} (s : InitStages ε) :
    (∀ e : ε, init_inner s = .error e →
      init s = ⟨.exited 1, true, true⟩ ∧ (1 : Nat) ≠ 0) ∧
    (init_inner s = .ok () → init s = ⟨.normalReturn, false, false⟩) ∧
    (∀ e : ε, s.load_install = .error e → init_inner s = .error e) ∧
    (∀ e : ε, s.load_install = .ok () → s.build_runtime = .error e →
      init_inner s = .error e) ∧
    (∀ e : ε, s.load_install = .ok () → s.build_runtime = .ok () →
      s.load_runtime = .ok () → s.logging = .ok () → s.user_init = .ok () →
      s.server_start = .error e → init_inner s = .error e) := by
  obtain ⟨i, b, r, lg, u, st⟩ := s
  refine ⟨?_, ?_, ?_, ?_, ?_⟩
  · intro e he
    rw [init, he]
    exact ⟨rfl, by decide⟩
  · intro he
    rw [init, he]
  · intro e he
    simp_all [init_inner, Bind.bind, Except.bind]
  · intro e hi he
    simp_all [init_inner, Bind.bind, Except.bind]
  · intro e h1 h2 h3 h4 h5 h6
    simp_all [init_inner, Bind.bind, Except.bind]

/-- Witness for claim C6 at a concrete stage vector: a server-start failure
makes `init` exit with status 1 after logging and printing. -/
theorem init_startup_failure_exit_witness :
    init (ε := Unit) ⟨.ok (), .ok (), .ok (), .ok (), .ok (), .error ()⟩ =
      ⟨.exited 1, true, true⟩ :=
  ((init_startup_failure_exit
      ⟨.ok (), .ok (), .ok (), .ok (), .ok (), .error ()⟩).1 () rfl).1

/-- What one iteration of the accept loop tells the loop to do next. -/
inductive LoopControl where
  | continueLoop
  | exitProcess (code : Nat)
deriving DecidableEq, Repr

/-- The body the accept loop of `server::start` spawns for one accepted
connection (server.rs lines 63-70): `if let Err(e) = handle_service.call
(socket).await { debug!("http connection terminated", error: e) }`. An
erroneous connection produces a debug log entry; in either case the task
ends without propagating the error, and nothing in the loop body breaks the
loop or exits the process. -/
def acceptLoopBody {ε : Type} (handleResult : Except ε Unit) :
    List String × LoopControl :=
  match handleResult with
  | .ok () => ([], .continueLoop)
  | .error _ => (["http connection terminated"], .continueLoop)

/-- The observable outcome of running the accept loop over a stream of
connections whose per-connection handling results are given. -/
structure AcceptLoopTrace where
  logs : List (List String)
  handled : Nat
  processExited : Bool
deriving DecidableEq, Repr

/-- Run of the accept loop (server.rs lines 59-72) over the given
per-connection handling results, iterating `acceptLoopBody` and stopping
only if an iteration requests process exit (none does). -/
def acceptLoopRun {ε : Type} : List (Except ε Unit) → AcceptLoopTrace
  | [] => ⟨[], 0, false⟩
  | r :: rest =>
    match acceptLoopBody r with
    | (entry, .continueLoop) =>
      let t := acceptLoopRun rest
      ⟨entry :: t.logs, t.handled + 1, t.processExited⟩
    | (entry, .exitProcess _) => ⟨[entry], 1, true⟩

/-- Claim C7: a connection-level handling error is logged and terminates only
that connection — the loop body always asks to continue, so every accepted
connection is handled no matter how many earlier ones failed, the process
never exits because of a connection error, and each failed connection
contributes exactly its own debug log entry. -/
theorem connection_error_isolation {ε : Type} (results : List (Except ε Unit)) :
    (acceptLoopRun results).handled = results.length ∧
    (acceptLoopRun results).processExited = false ∧
    (acceptLoopRun results).logs =
      results.map (fun r => (acceptLoopBody r).1) ∧
    (∀ e : ε, acceptLoopBody (.error e) =
      (["http connection terminated"], .continueLoop)) := by
  refine ⟨?_, ?_, ?_, fun e => rfl⟩ <;>
    · induction results with
      | nil => rfl
      | cons r rest ih =>
        cases r <;> simpa [acceptLoopRun, acceptLoopBody] using ih

/-- An installed endpoint as witchcraft.rs builds it: a `ConjureEndpoint`
wrapping async endpoint `id`, a `ConjureBlockingEndpoint` wrapping blocking
endpoint `id` and holding a handle on thread pool `pool`, or an
`ExtendedPathEndpoint` wrapping an endpoint under a path prefix. -/
inductive WitchcraftEndpoint where
  | conjure (id : Nat)
  | conjureBlocking (id : Nat) (pool : Nat)
  | extendedPath (inner : WitchcraftEndpoint) (pfx : String)
deriving DecidableEq, Repr

/-- Embeds `extend_path` (witchcraft.rs lines 121-138): normalize a context path of
exactly `/` to the empty string, concatenate it with the optional
registration prefix, and install the endpoint unchanged when the combined
prefix is empty, wrapped in an `ExtendedPathEndpoint` under the combined
prefix otherwise. -/
def extend_path (endpoint : WitchcraftEndpoint) (context_path : String)
    (pfx : Option String) : WitchcraftEndpoint :=
  let context_path := if context_path = "/" then "" else context_path
  let combined := context_path ++ pfx.getD ""
  if combined.isEmpty then endpoint
  else .extendedPath endpoint combined

/-- Embeds `blocking::pool::ThreadPool`, identified by which `ThreadPool::new`
invocation created it. -/
structure ThreadPool where
  id : Nat
deriving DecidableEq, Repr

/-- The fields of the `Witchcraft` context (witchcraft.rs lines 28-35) that
endpoint registration touches, plus a count of `ThreadPool::new` invocations
to make pool identity observable. -/
structure WitchcraftState where
  context_path : String
  thread_pool : Option ThreadPool
  endpoints : List WitchcraftEndpoint
  pools_created : Nat
deriving DecidableEq, Repr

/-- Embeds `Witchcraft::endpoints` (witchcraft.rs lines 72-83): wrap each async
endpoint in a `ConjureEndpoint` and install it under the combined prefix via
`extend_path`. -/
def Witchcraft.endpoints (w : WitchcraftState) (pfx : Option String)
    (es : List Nat) : WitchcraftState :=
  { w with
    endpoints := w.endpoints ++
      es.map (fun i => extend_path (.conjure i) w.context_path pfx) }

/-- Embeds `Witchcraft::app` (witchcraft.rs lines 56-62): install an async service
at the server's root — no registration prefix. -/
def Witchcraft.app (w : WitchcraftState) (es : List Nat) : WitchcraftState :=
  Witchcraft.endpoints w none es

/-- Embeds `Witchcraft::api` (witchcraft.rs lines 64-70): install an async service
under the server's `/api` prefix. -/
def Witchcraft.api (w : WitchcraftState) (es : List Nat) : WitchcraftState :=
  Witchcraft.endpoints w (some "/api") es

/-- Embeds `Witchcraft::blocking_endpoints` (witchcraft.rs lines 101-118): fetch the
thread pool, creating it with `ThreadPool::new` only if `thread_pool` is
still `None` (`get_or_insert_with`), then wrap each blocking endpoint in a
`ConjureBlockingEndpoint` holding that pool and install it under the
combined prefix via `extend_path`. -/
def Witchcraft.blocking_endpoints (w : WitchcraftState) (pfx : Option String)
    (es : List Nat) : WitchcraftState :=
  match w.thread_pool with
  | some pool =>
    { w with
      endpoints := w.endpoints ++
        es.map (fun i =>
          extend_path (.conjureBlocking i pool.id) w.context_path pfx) }
  | none =>
    let pool : ThreadPool := ⟨w.pools_created⟩
    { w with
      thread_pool := some pool
      pools_created := w.pools_created + 1
      endpoints := w.endpoints ++
        es.map (fun i =>
          extend_path (.conjureBlocking i pool.id) w.context_path pfx) }

/-- Embeds `Witchcraft::blocking_app` (witchcraft.rs lines 85-91): install a
blocking service at the server's root — no registration prefix. -/
def Witchcraft.blocking_app (w : WitchcraftState) (es : List Nat) :
    WitchcraftState :=
  Witchcraft.blocking_endpoints w none es

/-- Embeds `Witchcraft::blocking_api` (witchcraft.rs lines 93-99): install a
blocking service under the server's `/api` prefix. -/
def Witchcraft.blocking_api (w : WitchcraftState) (es : List Nat) :
    WitchcraftState :=
  Witchcraft.blocking_endpoints w (some "/api") es

/-- One service-registration call made against the `Witchcraft` context
before the server starts. -/
inductive Registration where
  | app (es : List Nat)
  | api (es : List Nat)
  | blocking_app (es : List Nat)
  | blocking_api (es : List Nat)
deriving DecidableEq, Repr

/-- Whether a registration is of a blocking service. -/
def Registration.isBlocking : Registration → Bool
  | .blocking_app _ => true
  | .blocking_api _ => true
  | .app _ => false
  | .api _ => false

/-- Dispatch one registration call to the corresponding `Witchcraft`
method. -/
def applyRegistration (w : WitchcraftState) : Registration → WitchcraftState
  | .app es => Witchcraft.app w es
  | .api es => Witchcraft.api w es
  | .blocking_app es => Witchcraft.blocking_app w es
  | .blocking_api es => Witchcraft.blocking_api w es

/-- The `Witchcraft` context as `init_inner` constructs it (lib.rs lines
192-201): no thread pool, no endpoints. -/
def initialWitchcraft (context_path : String) : WitchcraftState :=
  ⟨context_path, none, [], 0⟩

/-- Run a sequence of registration calls against the context. -/
def runRegistrations (w : WitchcraftState) (rs : List Registration) :
    WitchcraftState :=
  rs.foldl applyRegistration w

/-- The identities of the thread pools an installed endpoint holds a handle
on. -/
def WitchcraftEndpoint.poolIds : WitchcraftEndpoint → List Nat
  | .conjure _ => []
  | .conjureBlocking _ pool => [pool]
  | .extendedPath inner _ => inner.poolIds

theorem poolIds_extend_path (e : WitchcraftEndpoint) (cp : String)
    (pfx : Option String) :
    (extend_path e cp pfx).poolIds = e.poolIds := by
  simp only [extend_path]
  split <;> split <;> simp [WitchcraftEndpoint.poolIds]

/-- Nesting depth of `ExtendedPathEndpoint` wrappers. -/
def WitchcraftEndpoint.depth : WitchcraftEndpoint → Nat
  | .conjure _ => 0
  | .conjureBlocking _ _ => 0
  | .extendedPath inner _ => inner.depth + 1

theorem extendedPath_ne (e : WitchcraftEndpoint) (s : String) :
    WitchcraftEndpoint.extendedPath e s ≠ e := by
  intro h
  have h2 := congrArg WitchcraftEndpoint.depth h
  simp only [WitchcraftEndpoint.depth] at h2
  omega

/-- Claim C9: an endpoint's installed prefix is the concatenation of the
configured context path — with a context path of exactly `/` normalized to
the empty string — and the optional registration prefix; the endpoint is
installed completely unchanged exactly when the combined prefix is empty,
and is otherwise wrapped under exactly that combined prefix. The
registration prefix is `/api` for `api`/`blocking_api` and absent for
`app`/`blocking_app`. -/
theorem extend_path_prefixing (e : WitchcraftEndpoint) (context_path : String)
    (pfx : Option String) :
    (extend_path e context_path pfx = e ↔
      (if context_path = "/" then "" else context_path) ++ pfx.getD "" = "") ∧
    ((if context_path = "/" then "" else context_path) ++ pfx.getD "" ≠ "" →
      extend_path e context_path pfx =
        .extendedPath e
          ((if context_path = "/" then "" else context_path) ++
            pfx.getD "")) ∧
    (∀ (w : WitchcraftState) (es : List Nat),
      Witchcraft.app w es = Witchcraft.endpoints w none es) ∧
    (∀ (w : WitchcraftState) (es : List Nat),
      Witchcraft.api w es = Witchcraft.endpoints w (some "/api") es) ∧
    (∀ (w : WitchcraftState) (es : List Nat),
      Witchcraft.blocking_app w es =
        Witchcraft.blocking_endpoints w none es) ∧
    (∀ (w : WitchcraftState) (es : List Nat),
      Witchcraft.blocking_api w es =
        Witchcraft.blocking_endpoints w (some "/api") es) := by
  refine ⟨⟨?_, ?_⟩, ?_, fun w es => rfl, fun w es => rfl, fun w es => rfl,
    fun w es => rfl⟩
  · intro h
    by_cases hc :
      (if context_path = "/" then "" else context_path) ++ pfx.getD "" = ""
    · exact hc
    · exfalso
      have h2 : extend_path e context_path pfx =
          .extendedPath e
            ((if context_path = "/" then "" else context_path) ++
              pfx.getD "") := by
        simp [extend_path, String.isEmpty_iff, hc]
      rw [h2] at h
      exact extendedPath_ne e _ h
  · intro h
    simp [extend_path, String.isEmpty_iff, h]
  · intro h
    simp [extend_path, String.isEmpty_iff, h]

/-- Witness for claim C9 at a concrete registration: a context path of
`/foo` combined with the `/api` registration prefix wraps the endpoint
under `/foo/api`. -/
theorem extend_path_prefixing_witness :
    extend_path (.conjure 0) "/foo" (some "/api") =
      .extendedPath (.conjure 0)
        ((if "/foo" = "/" then "" else "/foo") ++ (some "/api").getD "") :=
  (extend_path_prefixing (.conjure 0) "/foo" (some "/api")).2.1 (by decide)

theorem runRegistrations_pool_stable (rs : List Registration)
    (w : WitchcraftState) (p : ThreadPool) (hp : w.thread_pool = some p) :
    (runRegistrations w rs).thread_pool = some p ∧
    (runRegistrations w rs).pools_created = w.pools_created := by
  induction rs generalizing w with
  | nil => exact ⟨hp, rfl⟩
  | cons r rest ih =>
    cases r with
    | app es =>
      exact ih (Witchcraft.app w es) hp
    | api es =>
      exact ih (Witchcraft.api w es) hp
    | blocking_app es =>
      have hw : Witchcraft.blocking_app w es =
          { w with endpoints := w.endpoints ++
              es.map (fun i =>
                extend_path (.conjureBlocking i p.id) w.context_path none) } := by
        simp [Witchcraft.blocking_app, Witchcraft.blocking_endpoints, hp]
      have := ih (Witchcraft.blocking_app w es) (by rw [hw]; exact hp)
      simpa [runRegistrations, applyRegistration, hw] using this
    | blocking_api es =>
      have hw : Witchcraft.blocking_api w es =
          { w with endpoints := w.endpoints ++
              es.map (fun i =>
                extend_path (.conjureBlocking i p.id) w.context_path
                  (some "/api")) } := by
        simp [Witchcraft.blocking_api, Witchcraft.blocking_endpoints, hp]
      have := ih (Witchcraft.blocking_api w es) (by rw [hw]; exact hp)
      simpa [runRegistrations, applyRegistration, hw] using this

theorem runRegistrations_pool_lazy (rs : List Registration)
    (w : WitchcraftState) (hp : w.thread_pool = none) :
    (runRegistrations w rs).thread_pool =
      (if rs.any Registration.isBlocking then some ⟨w.pools_created⟩
       else none) ∧
    (runRegistrations w rs).pools_created =
      (if rs.any Registration.isBlocking then w.pools_created + 1
       else w.pools_created) := by
  induction rs generalizing w with
  | nil => simp [runRegistrations, hp]
  | cons r rest ih =>
    cases r with
    | app es =>
      have := ih (Witchcraft.app w es) hp
      simpa [runRegistrations, Registration.isBlocking] using this
    | api es =>
      have := ih (Witchcraft.api w es) hp
      simpa [runRegistrations, Registration.isBlocking] using this
    | blocking_app es =>
      have hw : (Witchcraft.blocking_app w es).thread_pool =
          some ⟨w.pools_created⟩ := by
        simp [Witchcraft.blocking_app, Witchcraft.blocking_endpoints, hp]
      have hc : (Witchcraft.blocking_app w es).pools_created =
          w.pools_created + 1 := by
        simp [Witchcraft.blocking_app, Witchcraft.blocking_endpoints, hp]
      have := runRegistrations_pool_stable rest
        (Witchcraft.blocking_app w es) ⟨w.pools_created⟩ hw
      simp [runRegistrations, Registration.isBlocking, applyRegistration]
        at this ⊢
      exact ⟨this.1, by rw [this.2, hc]⟩
    | blocking_api es =>
      have hw : (Witchcraft.blocking_api w es).thread_pool =
          some ⟨w.pools_created⟩ := by
        simp [Witchcraft.blocking_api, Witchcraft.blocking_endpoints, hp]
      have hc : (Witchcraft.blocking_api w es).pools_created =
          w.pools_created + 1 := by
        simp [Witchcraft.blocking_api, Witchcraft.blocking_endpoints, hp]
      have := runRegistrations_pool_stable rest
        (Witchcraft.blocking_api w es) ⟨w.pools_created⟩ hw
      simp [runRegistrations, Registration.isBlocking, applyRegistration]
        at this ⊢
      exact ⟨this.1, by rw [this.2, hc]⟩

/-- The pool-identity invariant maintained across registrations started from
a fresh context: either no pool has been created yet, or exactly the pool
with identity 0 exists; and every installed endpoint's pool handles point at
pool 0. -/
def poolInvariant (w : WitchcraftState) : Prop :=
  ((w.thread_pool = none ∧ w.pools_created = 0) ∨
    (w.thread_pool = some ⟨0⟩ ∧ w.pools_created = 1)) ∧
  (∀ e ∈ w.endpoints, ∀ p ∈ e.poolIds, p = 0)

theorem applyRegistration_poolInvariant (w : WitchcraftState)
    (r : Registration) (h : poolInvariant w) :
    poolInvariant (applyRegistration w r) := by
  obtain ⟨hpool, hends⟩ := h
  cases r with
  | app es =>
    refine ⟨hpool, ?_⟩
    intro e he p hpmem
    simp [applyRegistration, Witchcraft.app, Witchcraft.endpoints] at he
    rcases he with he | ⟨i, _, rfl⟩
    · exact hends e he p hpmem
    · rw [poolIds_extend_path] at hpmem
      simp [WitchcraftEndpoint.poolIds] at hpmem
  | api es =>
    refine ⟨hpool, ?_⟩
    intro e he p hpmem
    simp [applyRegistration, Witchcraft.api, Witchcraft.endpoints] at he
    rcases he with he | ⟨i, _, rfl⟩
    · exact hends e he p hpmem
    · rw [poolIds_extend_path] at hpmem
      simp [WitchcraftEndpoint.poolIds] at hpmem
  | blocking_app es =>
    rcases hpool with ⟨hnone, hzero⟩ | ⟨hsome, hone⟩
    · constructor
      · right
        simp [applyRegistration, Witchcraft.blocking_app,
          Witchcraft.blocking_endpoints, hnone, hzero]
      · intro e he p hpmem
        simp [applyRegistration, Witchcraft.blocking_app,
          Witchcraft.blocking_endpoints, hnone] at he
        rcases he with he | ⟨i, _, rfl⟩
        · exact hends e he p hpmem
        · rw [poolIds_extend_path] at hpmem
          simp [WitchcraftEndpoint.poolIds, hzero] at hpmem
          exact hpmem
    · constructor
      · right
        simp [applyRegistration, Witchcraft.blocking_app,
          Witchcraft.blocking_endpoints, hsome, hone]
      · intro e he p hpmem
        simp [applyRegistration, Witchcraft.blocking_app,
          Witchcraft.blocking_endpoints, hsome] at he
        rcases he with he | ⟨i, _, rfl⟩
        · exact hends e he p hpmem
        · rw [poolIds_extend_path] at hpmem
          simp [WitchcraftEndpoint.poolIds] at hpmem
          exact hpmem
  | blocking_api es =>
    rcases hpool with ⟨hnone, hzero⟩ | ⟨hsome, hone⟩
    · constructor
      · right
        simp [applyRegistration, Witchcraft.blocking_api,
          Witchcraft.blocking_endpoints, hnone, hzero]
      · intro e he p hpmem
        simp [applyRegistration, Witchcraft.blocking_api,
          Witchcraft.blocking_endpoints, hnone] at he
        rcases he with he | ⟨i, _, rfl⟩
        · exact hends e he p hpmem
        · rw [poolIds_extend_path] at hpmem
          simp [WitchcraftEndpoint.poolIds, hzero] at hpmem
          exact hpmem
    · constructor
      · right
        simp [applyRegistration, Witchcraft.blocking_api,
          Witchcraft.blocking_endpoints, hsome, hone]
      · intro e he p hpmem
        simp [applyRegistration, Witchcraft.blocking_api,
          Witchcraft.blocking_endpoints, hsome] at he
        rcases he with he | ⟨i, _, rfl⟩
        · exact hends e he p hpmem
        · rw [poolIds_extend_path] at hpmem
          simp [WitchcraftEndpoint.poolIds] at hpmem
          exact hpmem

theorem runRegistrations_poolInvariant (rs : List Registration)
    (w : WitchcraftState) (h : poolInvariant w) :
    poolInvariant (runRegistrations w rs) := by
  induction rs generalizing w with
  | nil => exact h
  | cons r rest ih =>
    exact ih (applyRegistration w r) (applyRegistration_poolInvariant w r h)

/-- Claim C10: starting from the fresh `Witchcraft` context, the blocking
thread pool is created lazily by the first blocking registration —
`ThreadPool::new` runs exactly once over any registration sequence
containing a blocking registration and never otherwise, a registration
sequence with only async `app`/`api` calls leaves the context with no pool —
and every blocking endpoint installed by any of the registrations holds a
handle on that single first-created pool. -/
theorem blocking_pool_lazy_singleton (cp : String) (rs : List Registration) :
    ((runRegistrations (initialWitchcraft cp) rs).pools_created =
      if rs.any Registration.isBlocking then 1 else 0) ∧
    ((runRegistrations (initialWitchcraft cp) rs).thread_pool =
      if rs.any Registration.isBlocking then some ⟨0⟩ else none) ∧
    (∀ e ∈ (runRegistrations (initialWitchcraft cp) rs).endpoints,
      ∀ p ∈ e.poolIds, p = 0) := by
  have hlazy := runRegistrations_pool_lazy rs (initialWitchcraft cp) rfl
  have hinv := runRegistrations_poolInvariant rs (initialWitchcraft cp)
    ⟨Or.inl ⟨rfl, rfl⟩, by intro e he; cases he⟩
  exact ⟨hlazy.2, hlazy.1, hinv.2⟩

/-- Witness for claim C10 at a concrete registration sequence: a single
`blocking_api` registration creates exactly one pool, and the installed
blocking endpoint's pool handle is pool 0. -/
theorem blocking_pool_lazy_singleton_witness :
    (runRegistrations (initialWitchcraft "/")
        [.blocking_api [5]]).pools_created = 1 ∧ (0 : Nat) = 0 := by
  refine ⟨?_,
    (blocking_pool_lazy_singleton "/" [.blocking_api [5]]).2.2
      (.extendedPath (.conjureBlocking 5 0) "/api") (by decide) 0 (by decide)⟩
  simpa using (blocking_pool_lazy_singleton "/" [.blocking_api [5]]).1